import Mathlib

/-!
Verification development for the WAFleet session-lifecycle layer.

The definitions below are a shallow embedding of the TypeScript sources:
  - src/services/locks.ts          (distributed lease lock over Redis)
  - src/services/waSessions.ts     (per-session state machine, backoff, restore scanner)
  - src/services/waAuthRedis.ts    (credential store over Redis)
  - src/services/tokenStore.ts     (base62 API-token generator)

Redis is modelled as an association list from string keys to values
(strings or sets) with an optional TTL.  Asynchronous effects of each
operation are made explicit: every operation is a pure function from a
system state to a system state together with an effect record.
Randomness (randomUUID, randomBytes) is externalized as parameters, and the
outcome of an individual reconnection/restore attempt (which depends on the
network and on other processes) is externalized as an oracle.
-/

namespace WAFleet

/-! ## Generic association-list maps (the Redis keyspace and the in-memory
session registry are both string-keyed maps). -/

def alGet {α : Type} (l : List (String × α)) (k : String) : Option α :=
  (l.find? (fun p => p.1 == k)).map (fun p => p.2)

def alSet {α : Type} : List (String × α) → String → α → List (String × α)
  | [], k, v => [(k, v)]
  | p :: rest, k, v => if p.1 == k then (k, v) :: rest else p :: alSet rest k v

def alDel {α : Type} (l : List (String × α)) (k : String) : List (String × α) :=
  l.filter (fun p => !(p.1 == k))

/-! ## The Redis value model -/

inductive RVal where
  | str : String → RVal
  | set : List String → RVal
deriving DecidableEq

structure StoreEntry where
  val : RVal
  ttlMs : Option Nat
deriving DecidableEq

deriving instance DecidableEq for Except

/-- The shared Redis keyspace. -/
def Store : Type := List (String × StoreEntry)

instance : DecidableEq Store := by
  unfold Store
  infer_instance

def getVal (st : Store) (k : String) : Option RVal :=
  (alGet st k).map (fun e => e.val)

/-- `redis.get k` — returns the string value, `none` when absent (a set-typed
key would raise WRONGTYPE in Redis; modelled as `none`). -/
def getStr (st : Store) (k : String) : Option String :=
  match getVal st k with
  | some (RVal.str s) => some s
  | _ => none

/-- `SMEMBERS k` — members of a set key, `[]` when absent. -/
def smembers (st : Store) (k : String) : List String :=
  match getVal st k with
  | some (RVal.set xs) => xs
  | _ => []

/-! ## locks.ts — the lease lock -/

/-- `LOCK_TTL_MS` default from locks.ts. -/
def LOCK_TTL_MS : Nat := 10000

def lockKey (sessionId : String) : String := "lock:wa:" ++ sessionId

structure SessionLock where
  key : String
  token : String
deriving DecidableEq

/-- `acquireSessionLock` (locks.ts lines 30-40): `SET key token NX PX ttl`.
Succeeds only when the key is absent; on success writes the fresh `token`
with TTL `LOCK_TTL_MS` and returns the lock, otherwise returns `none` and
leaves the store untouched (no retry inside the call).  The random
`token` (randomUUID) is externalized as a parameter. -/
def acquireSessionLock (st : Store) (sessionId : String) (token : String) :
    Option SessionLock × Store :=
  let key := lockKey sessionId
  match alGet st key with
  | some _ => (none, st)
  | none =>
      (some { key := key, token := token },
       alSet st key { val := RVal.str token, ttlMs := some LOCK_TTL_MS })

/-- `RENEW_LUA` (locks.ts lines 43-49): extend the TTL only when the stored
value still equals the caller's token; returns the Lua script's integer
reply together with the resulting store. -/
def RENEW_LUA (st : Store) (key token : String) (ttlMs : Nat) : Nat × Store :=
  match alGet st key with
  | some e =>
      match e.val with
      | RVal.str v =>
          if v == token then (1, alSet st key { e with ttlMs := some ttlMs })
          else (0, st)
      | RVal.set _ => (0, st)
  | none => (0, st)

/-- `RELEASE_LUA` (locks.ts lines 50-56): delete the key only when the stored
value still equals the caller's token. -/
def RELEASE_LUA (st : Store) (key token : String) : Nat × Store :=
  match alGet st key with
  | some e =>
      match e.val with
      | RVal.str v =>
          if v == token then (1, alDel st key)
          else (0, st)
      | RVal.set _ => (0, st)
  | none => (0, st)

/-! ## waAuthRedis.ts — the credential store -/

def sessSetKey (sid : String) : String := "sess:" ++ sid ++ ":tokens"

def tokenKey (t : String) : String := "token:" ++ t

/-- The key namespace root `baileys:` ++ sid ++ `:` of waAuthRedis.ts. -/
def kBase (sid : String) : String := "baileys:" ++ sid ++ ":"

def kCreds (sid : String) : String := kBase sid ++ "creds"

/-- `keyOf type id` of waAuthRedis.ts (signal key material). -/
def keyOf (sid ty id : String) : String := kBase sid ++ (ty ++ ":" ++ id)

/-- Redis glob match for the patterns used by this code base: a fixed
prefix, a single `*`, and a fixed suffix (`*` matches any, possibly empty,
character sequence). -/
def globPSMatch (pre suf k : String) : Bool :=
  pre.data.isPrefixOf k.data && suf.data.isSuffixOf k.data
    && pre.length + suf.length ≤ k.length

/-- Credential load of `useRedisAuth` (waAuthRedis.ts lines 36-49), with the
credential type and the JSON parser externalized: an absent (or empty, which
is falsy in JS) blob yields freshly initialized credentials `ini`
(initAuthCreds), and a blob the parser rejects is logged and also falls back
to `ini` instead of raising. -/
def loadCreds {α : Type} (ini : α) (parse : String → Option α)
    (savedCreds : Option String) : α :=
  match savedCreds with
  | none => ini
  | some s => if s = "" then ini else (parse s).getD ini

/-- The signal-material batch read `rawKeyStore.get` (waAuthRedis.ts lines
62-82): MGET over `keyOf type id`, omitting absent or unparsable entries. -/
def signalGet {α : Type} (parse : String → Option α) (st : Store)
    (sid ty : String) (ids : List String) : List (String × α) :=
  ids.filterMap (fun id => ((getStr st (keyOf sid ty id)).bind parse).map (fun v => (id, v)))

/-- `deleteRedisAuth` (waAuthRedis.ts lines 130-168): reads the session's
API-token set, then in one pipeline deletes every token mapping listed
there, the token set itself, and every key found by SCAN MATCH
`baileys:` ++ sid ++ `:*`. -/
def deleteRedisAuth (store : Store) (sid : String) : Store :=
  let tokens := smembers store (sessSetKey sid)
  let delKeys := tokens.map tokenKey ++ [sessSetKey sid]
  store.filter (fun p => !(delKeys.contains p.1 || globPSMatch (kBase sid) ("") p.1))

/-! ## waSessions.ts — the per-session state machine -/

/-- Source statuses 'connecting' | 'open' | 'close'. -/
inductive SessionStatus where
  | connecting
  | opened
  | closed
deriving DecidableEq

structure SessionEntry where
  sock : Option Nat
  status : SessionStatus
  lastQr : Option String
  userJid : Option String
  reconnecting : Bool
  backoffMs : Option Nat
  backoffTimer : Option Nat
  lock : Option SessionLock
deriving DecidableEq

/-- The JS empty object appearing in the entry-replacement spread of
createSession: every field absent. -/
def emptyEntry : SessionEntry :=
  { sock := none, status := SessionStatus.connecting, lastQr := none, userJid := none,
    reconnecting := false, backoffMs := none, backoffTimer := none, lock := none }

structure SysState where
  sessions : List (String × SessionEntry)
  store : Store
  nextSock : Nat
  nextToken : Nat
deriving DecidableEq

def RECONNECT_MIN : Nat := 2000
def RECONNECT_MAX : Nat := 30000
def RETRIES : Nat := 5
def RETRY_DELAY_MS : Nat := 2000

def freshToken (n : Nat) : String := "uuid-" ++ toString n

/-- `resetBackoff` (waSessions.ts lines 43-50). -/
def resetBackoff (s : SessionEntry) : SessionEntry :=
  { s with backoffMs := some RECONNECT_MIN, backoffTimer := none, reconnecting := false }

/-- `scheduleReconnect` (waSessions.ts lines 57-73): no-op when the entry is
absent or already `reconnecting`; otherwise set `reconnecting`, update
`backoffMs` to `min (backoffMs ? backoffMs * 2 : RECONNECT_MIN)
RECONNECT_MAX` (JS truthiness: undefined and 0 are falsy) and arm a one-shot
timer with that delay.  Returns the armed delay, `none` when nothing was
scheduled. -/
def scheduleReconnect (st : SysState) (sid : String) : SysState × Option Nat :=
  match alGet st.sessions sid with
  | none => (st, none)
  | some s =>
      if s.reconnecting then (st, none)
      else
        let b := s.backoffMs.getD 0
        let nd := min (if b ≠ 0 then 2 * b else RECONNECT_MIN) RECONNECT_MAX
        let s2 := { s with reconnecting := true, backoffMs := some nd, backoffTimer := some nd }
        ({ st with sessions := alSet st.sessions sid s2 }, some nd)

/-- The early-return guard of `createSession` (waSessions.ts line 103):
existing socket non-null, status not 'close', and not forced. -/
def earlyHit (existing : Option SessionEntry) (force : Bool) : Bool :=
  match existing with
  | some e => e.sock.isSome && !(e.status == SessionStatus.closed) && !force
  | none => false

structure CreateEffects where
  earlyReturn : Bool
  lockAcquired : Bool
  listenersDetached : Bool
  socketBuilt : Bool
deriving DecidableEq

/-- `createSession` (waSessions.ts lines 101-209) as a sequential step.
Mirrors the source: early idempotent return; distributed-lock acquisition
when the entry has no lock yet (throwing 423 when the key is held
elsewhere); on `force` with an old socket, listener detach and socket
nulling; credential load via `useRedisAuth` (read-only here); construction
of a fresh socket handle; and replacement of the registry entry by the
spread of the current entry (or the empty object) with the new socket and
status 'connecting'. -/
def createSession (st : SysState) (sid : String) (force : Bool) :
    Except Nat (SessionEntry × SysState × CreateEffects) :=
  let existing := alGet st.sessions sid
  if earlyHit existing force then
    match existing with
    | some e => Except.ok (e, st, ⟨true, false, false, false⟩)
    | none => Except.error 0
  else
    match
      (if (existing.bind (fun e => e.lock)).isSome then
        Except.ok (st, false)
      else
        match acquireSessionLock st.store sid (freshToken st.nextToken) with
        | (none, _) => Except.error 423
        | (some l, store2) =>
            let baseEntry :=
              match existing with
              | some e => { e with lock := some l }
              | none => { emptyEntry with lock := some l }
            Except.ok ({ st with
              store := store2
              nextToken := st.nextToken + 1
              sessions := alSet st.sessions sid baseEntry }, true)
        : Except Nat (SysState × Bool))
    with
    | Except.error c => Except.error c
    | Except.ok (st1, lockAcq) =>
        let detach := force && (existing.bind (fun e => e.sock)).isSome
        let st2 :=
          if detach then
            match alGet st1.sessions sid with
            | some cur =>
                { st1 with sessions := alSet st1.sessions sid { cur with sock := none } }
            | none => st1
          else st1
        let sockId := st2.nextSock
        let base := (alGet st2.sessions sid).getD emptyEntry
        let entry := { base with sock := some sockId, status := SessionStatus.connecting }
        Except.ok (entry,
          { st2 with
            nextSock := st2.nextSock + 1
            sessions := alSet st2.sessions sid entry },
          ⟨false, lockAcq, detach, true⟩)

/-- `getSession` (waSessions.ts lines 76-86): return the in-memory entry,
otherwise lazily restore via `createSession sid false`, mapping a failure to
`none` (the 423 throw happens before any state mutation). -/
def getSession (st : SysState) (sid : String) : Option SessionEntry × SysState :=
  match alGet st.sessions sid with
  | some s => (some s, st)
  | none =>
      match createSession st sid false with
      | Except.ok (e, st2, _) => (some e, st2)
      | Except.error _ => (none, st)

structure LogoutEffects where
  listenersRemoved : Bool
  sockLogout : Bool
  lockReleased : Bool
  credsDeleted : Bool
deriving DecidableEq

/-- `logoutSession` (waSessions.ts lines 225-261): look the session up (with
lazy restore); when absent, only wipe the Redis auth/token state; otherwise
stop the backoff timer, remove the socket listeners, log the socket out,
conditionally release the distributed lock, delete the in-memory entry, and
wipe the Redis auth/token state. -/
def logoutSession (st : SysState) (sid : String) : SysState × LogoutEffects :=
  match getSession st sid with
  | (none, st1) =>
      ({ st1 with store := deleteRedisAuth st1.store sid }, ⟨false, false, false, true⟩)
  | (some s, st1) =>
      let store1 :=
        match s.lock with
        | some l => (RELEASE_LUA st1.store l.key l.token).2
        | none => st1.store
      ({ st1 with
         sessions := alDel st1.sessions sid
         store := deleteRedisAuth store1 sid },
       ⟨s.sock.isSome, s.sock.isSome, s.lock.isSome, true⟩)

def DisconnectReason.loggedOut : Nat := 401

def DisconnectReason.connectionReplaced : Nat := 440

/-- The open branch of the `connection.update` handler (waSessions.ts lines
177-185): set status, capture the resolved user JID, clear the cached QR
and reset backoff. -/
def handleOpen (st : SysState) (sid : String) (jid : Option String) : SysState :=
  match alGet st.sessions sid with
  | none => st
  | some s =>
      let s2 := resetBackoff
        { s with status := SessionStatus.opened, userJid := jid, lastQr := none }
      { st with sessions := alSet st.sessions sid s2 }

/-- The close branch of the `connection.update` handler (waSessions.ts lines
187-205): set status 'close', clear the QR cache; on `loggedOut` or
`connectionReplaced` run `logoutSession`, otherwise `scheduleReconnect`.
Returns the armed reconnect delay (if any) and the logout effects (if
termination ran). -/
def handleClose (st : SysState) (sid : String) (code : Option Nat) :
    SysState × Option Nat × Option LogoutEffects :=
  match alGet st.sessions sid with
  | none => (st, none, none)
  | some s =>
      let s1 := { s with status := SessionStatus.closed, lastQr := none }
      let st1 := { st with sessions := alSet st.sessions sid s1 }
      if code == some DisconnectReason.loggedOut
          || code == some DisconnectReason.connectionReplaced then
        let r := logoutSession st1 sid
        (r.1, none, some r.2)
      else
        let r := scheduleReconnect st1 sid
        (r.1, r.2, none)

/-- The timer callback's catch branch (waSessions.ts lines 65-72): the timer
fired (`backoffTimer = null`), `createSession` failed, so clear
`reconnecting` and reschedule.  The failed `createSession`'s own effects are
external failures and not part of the backoff arithmetic modelled here. -/
def reconnectFailedRetry (st : SysState) (sid : String) : SysState × Option Nat :=
  match alGet st.sessions sid with
  | none => (st, none)
  | some s =>
      let s1 := { s with backoffTimer := none, reconnecting := false }
      let st1 := { st with sessions := alSet st.sessions sid s1 }
      scheduleReconnect st1 sid

/-- Iterated reconnect failures: the armed delays of `n` consecutive
failed-attempt retries. -/
def delaysAfter : SysState → String → Nat → List (Option Nat)
  | _, _, 0 => []
  | st, sid, n + 1 =>
      (reconnectFailedRetry st sid).2
        :: delaysAfter (reconnectFailedRetry st sid).1 sid n

/-- The registry invariant of claim C9: every stored entry has a lock. -/
def registryInv (l : List (String × SessionEntry)) : Prop :=
  ∀ p ∈ l, (p.2).lock.isSome = true

/-! ## waSessions.ts — the restore scanner -/

/-- The middle of `k` when `k` is `pre` ++ mid ++ `suf` with mid nonempty;
the building block of the three anchored regexes of `extractIdFromKey`. -/
def stripMid (pre suf k : String) : Option String :=
  if pre.data.isPrefixOf k.data && suf.data.isSuffixOf k.data
      && pre.length + suf.length < k.length then
    some ((k.drop pre.length).dropRight suf.length)
  else none

/-- `extractIdFromKey` (waSessions.ts lines 276-290): try, in order, the
anchored regexes sess:([^:]+):tokens, baileys:(.+):creds, lock:wa:(.+).
`[^:]` excludes only the colon; `.` excludes the newline. -/
def extractIdFromKey (k : String) : Option String :=
  match (stripMid ("sess:") (":tokens") k).bind
      (fun mid => if mid.data.contains ':' then none else some mid) with
  | some mid => some mid
  | none =>
      match (stripMid ("baileys:") (":creds") k).bind
          (fun mid => if mid.data.contains '\n' then none else some mid) with
      | some mid => some mid
      | none =>
          (stripMid ("lock:wa:") ("") k).bind
            (fun mid => if mid.data.contains '\n' then none else some mid)

/-- The lock-key regex lock:wa:(.+) used to build the skip set
(waSessions.ts lines 323-328). -/
def lockIdOf (k : String) : Option String :=
  (stripMid ("lock:wa:") ("") k).bind
    (fun mid => if mid.data.contains '\n' then none else some mid)

/-- `scanKeys` (waSessions.ts lines 292-307): all keys of the store matching
the prefix-star-suffix glob (COUNT is a paging hint with no semantic
effect). -/
def scanKeys (keys : List String) (pre suf : String) : List String :=
  keys.filter (globPSMatch pre suf)

def dedupFirstAux (seen : List String) : List String → List String
  | [] => []
  | x :: rest =>
      if seen.contains x then dedupFirstAux seen rest
      else x :: dedupFirstAux (x :: seen) rest

/-- The JS Set used in restoreAll keeps first-insertion order. -/
def dedupFirst (l : List String) : List String := dedupFirstAux [] l

/-- Candidate session ids (waSessions.ts lines 310-320): keys of the two
patterns sess:*:tokens and baileys:*:creds, run through
`extractIdFromKey`, deduplicated in first-insertion order. -/
def candidateIds (keys : List String) : List String :=
  dedupFirst ((scanKeys keys ("sess:") (":tokens")
    ++ scanKeys keys ("baileys:") (":creds")).filterMap extractIdFromKey)

/-- Ids whose lock key is present (waSessions.ts lines 322-328). -/
def lockedIds (keys : List String) : List String :=
  (scanKeys keys ("lock:wa:") ("")).filterMap lockIdOf

/-- The outcome of one `createSession id false` attempt during restore, as
observed by the retry loop: success, a 423 locked throw, or any other
throw.  Externalized as an oracle since it depends on other processes. -/
inductive AttemptResult where
  | ok
  | locked
  | failed
deriving DecidableEq

/-- The retry loop body of restoreAll (waSessions.ts lines 339-358): try up
to `fuel` more times starting at attempt number `a`; retry (after a fixed
delay) only on the 423 locked condition and only while attempts remain;
stop on success or on any other failure.  Returns (restored?, number of
attempts made). -/
def restoreTry (att : Nat → AttemptResult) : Nat → Nat → Bool × Nat
  | 0, _ => (false, 0)
  | fuel + 1, a =>
      match att a with
      | AttemptResult.ok => (true, 1)
      | AttemptResult.failed => (false, 1)
      | AttemptResult.locked =>
          if fuel == 0 then (false, 1)
          else
            let r := restoreTry att fuel (a + 1)
            (r.1, r.2 + 1)

/-- One candidate of the restoreAll loop (waSessions.ts lines 332-363):
skip ids in the locked set without a single attempt, otherwise run the
bounded retry loop; successfully restored ids are appended to the result.
The second component logs (id, attempts made) per processed candidate. -/
def restoreStep (locked : List String) (att : String → Nat → AttemptResult)
    (acc : List String × List (String × Nat)) (id : String) :
    List String × List (String × Nat) :=
  if locked.contains id then (acc.1, acc.2 ++ [(id, 0)])
  else
    let r := restoreTry (att id) (RETRIES + 1) 0
    ((if r.1 then acc.1 ++ [id] else acc.1), acc.2 ++ [(id, r.2)])

/-- `restoreAllSessionsFromRedis` (waSessions.ts lines 309-367).  The
function is total: it always returns normally (individual attempt failures
are isolated by the oracle, never propagated). -/
def restoreAllSessionsFromRedis (keys : List String)
    (att : String → Nat → AttemptResult) : List String × List (String × Nat) :=
  (candidateIds keys).foldl (restoreStep (lockedIds keys) att) ([], [])

/-! ## tokenStore.ts — the base62 token generator -/

def ALPHABET62 : String :=
  "ABCDEFGHIJKLMNOPQRSTUVWXYZabcdefghijklmnopqrstuvwxyz0123456789"

def MASK_6BITS : Nat := 63

/-- The inner for-loop of `genToken`: consume the drawn bytes in order,
masking each to 6 bits and appending the alphabet character for values
below 62 (values 62 and 63 are rejected to avoid bias), while the output
is still short of the requested length. -/
def tokenBatch (n : Nat) (out : List Char) (bytes : List Nat) : List Char :=
  bytes.foldl (fun acc b =>
    if acc.length < n then
      (let v := b &&& MASK_6BITS
       if v < 62 then acc ++ [ALPHABET62.data.getD v 'A'] else acc)
    else acc) out

/-- `Math.ceil(remaining * 1.6)`, the size of each randomBytes draw. -/
def batchSize (remaining : Nat) : Nat := (remaining * 16 + 9) / 10

/-- The while-loop of `genToken` (tokenStore.ts lines 8-18), with the random
byte stream externalized (`rand i` is the i-th random byte) and fuel
bounding the number of draws (the JS loop runs until enough bytes were
accepted). -/
def genTokenFuel (rand : Nat → Nat) : Nat → Nat → Nat → List Char → Option (List Char)
  | 0, _, _, _ => none
  | fuel + 1, pos, n, out =>
      if out.length < n then
        (let k := batchSize (n - out.length)
         let bytes := (List.range k).map (fun i => rand (pos + i) % 256)
         genTokenFuel rand fuel (pos + k) n (tokenBatch n out bytes))
      else some out

/-- `genToken` (tokenStore.ts lines 8-18). -/
def genToken (rand : Nat → Nat) (fuel length : Nat) : Option (List Char) :=
  genTokenFuel rand fuel 0 length []

/-! ## Concrete states used by counterexamples and witnesses -/

def lockEntryT : StoreEntry := { val := RVal.str ("t"), ttlMs := some 10000 }

/-- A registry entry holding a lock but no socket (status 'connecting'):
exactly the shape createSession itself inserts right after acquiring the
lock and before building the socket. -/
def cexEntry5 : SessionEntry :=
  { emptyEntry with lock := some { key := lockKey ("s"), token := ("t") } }

def cexSt5 : SysState :=
  { sessions := [(("s"), cexEntry5)],
    store := [(lockKey ("s"), lockEntryT)], nextSock := 7, nextToken := 0 }

/-- A session that went through some backoff and holds a live socket. -/
def cexEntry4 : SessionEntry :=
  { emptyEntry with
    sock := some 0
    backoffMs := some 8000
    lock := some { key := lockKey ("s"), token := ("t") } }

def cexSt4 : SysState :=
  { sessions := [(("s"), cexEntry4)],
    store := [(lockKey ("s"), lockEntryT)], nextSock := 1, nextToken := 0 }

/-- A fresh live session with no backoff state yet. -/
def seqEntry : SessionEntry :=
  { emptyEntry with
    sock := some 0
    lock := some { key := lockKey ("s"), token := ("t") } }

def seqSt : SysState :=
  { sessions := [(("s"), seqEntry)],
    store := [(lockKey ("s"), lockEntryT)], nextSock := 1, nextToken := 0 }

/-- Store keys of the testable-properties scenario: three credential blobs,
one active lock. -/
def keys3 : List String :=
  [("baileys:a:creds"), ("baileys:b:creds"), ("baileys:c:creds"), ("lock:wa:b")]

end WAFleet

namespace WAFleet

/-! ## Association-list lemmas -/

theorem alGet_cons {α : Type} (p : String × α) (l : List (String × α)) (k : String) :
    alGet (p :: l) k = if p.1 = k then some p.2 else alGet l k := by
  by_cases h : p.1 = k
  · rw [if_pos h]
    unfold alGet
    rw [List.find?_cons_of_pos _ (by simp [h])]
    rfl
  · rw [if_neg h]
    unfold alGet
    rw [List.find?_cons_of_neg _ (by simp [h])]

theorem alGet_alSet_self {α : Type} (l : List (String × α)) (k : String) (v : α) :
    alGet (alSet l k v) k = some v := by
  induction l with
  | nil => simp [alGet, alSet]
  | cons p rest ih =>
    by_cases h : p.1 = k
    · simp [alSet, h, alGet_cons]
    · simp only [alSet, beq_iff_eq, h, if_false]
      rw [alGet_cons, if_neg h]
      exact ih

theorem alGet_alDel_self {α : Type} (l : List (String × α)) (k : String) :
    alGet (alDel l k) k = none := by
  induction l with
  | nil => simp [alGet, alDel]
  | cons p rest ih =>
    by_cases h : p.1 = k
    · simpa [alDel, List.filter_cons, h] using ih
    · unfold alDel at ih ⊢
      rw [List.filter_cons, if_pos (by simp [h]), alGet_cons, if_neg h]
      exact ih

theorem mem_alSet {α : Type} {l : List (String × α)} {k : String} {v : α} {q : String × α}
    (hq : q ∈ alSet l k v) : q = (k, v) ∨ q ∈ l := by
  induction l with
  | nil => simpa [alSet] using hq
  | cons p rest ih =>
    by_cases h : p.1 = k
    · simp only [alSet, h, beq_self_eq_true, if_true, List.mem_cons] at hq
      rcases hq with hq | hq
      · exact Or.inl hq
      · exact Or.inr (List.mem_cons_of_mem _ hq)
    · simp only [alSet, beq_iff_eq, h, if_false, List.mem_cons] at hq
      rcases hq with hq | hq
      · exact Or.inr (by simp [hq])
      · rcases ih hq with h1 | h1
        · exact Or.inl h1
        · exact Or.inr (List.mem_cons_of_mem _ h1)

theorem mem_of_alGet {α : Type} {l : List (String × α)} {k : String} {v : α}
    (h : alGet l k = some v) : (k, v) ∈ l := by
  induction l with
  | nil => simp [alGet] at h
  | cons p rest ih =>
    rw [alGet_cons] at h
    by_cases hp : p.1 = k
    · rw [if_pos hp] at h
      have h2 : p.2 = v := by simpa using h
      have hpkv : p = (k, v) := by
        cases p
        simp_all
      rw [← hpkv]
      exact List.mem_cons_self _ _
    · rw [if_neg hp] at h
      exact List.mem_cons_of_mem _ (ih h)

/-- Lookup in a list filtered by a key-only predicate that rejects `k` is `none`. -/
theorem alGet_filter_none {α : Type} (l : List (String × α)) (k : String)
    (pred : String × α → Bool) (hk : ∀ v : α, pred (k, v) = false) :
    alGet (l.filter pred) k = none := by
  induction l with
  | nil => simp [alGet]
  | cons p rest ih =>
    by_cases hp : p.1 = k
    · have hpf : pred p = false := by
        have hpkv : p = (k, p.2) := by
          cases p
          simp_all
        rw [hpkv]
        exact hk _
      simpa [List.filter_cons, hpf] using ih
    · by_cases hpp : pred p = true
      · rw [List.filter_cons, if_pos (by simp [hpp]), alGet_cons, if_neg hp]
        exact ih
      · simp only [Bool.not_eq_true] at hpp
        simpa [List.filter_cons, hpp] using ih

theorem contains_of_mem {a : String} {l : List String} (h : a ∈ l) :
    l.contains a = true := by
  induction l with
  | nil => cases h
  | cons x xs ih =>
    rcases List.mem_cons.mp h with h1 | h1
    · simp [List.contains_cons, h1]
    · simp only [List.contains_cons, Bool.or_eq_true, beq_iff_eq]
      right
      simpa using ih h1

/-! ## String-prefix facts for the key namespaces -/

theorem isPrefixOf_append_self (l m : List Char) : l.isPrefixOf (l ++ m) = true := by
  induction l with
  | nil => simp
  | cons a as ih => simp [List.cons_append, List.isPrefixOf, ih]

theorem nil_isSuffixOf (l : List Char) : ([] : List Char).isSuffixOf l = true := by
  simp [List.isSuffixOf]

/-- Every key of the form pre ++ suffix matches the glob pre ++ `*`. -/
theorem globPSMatch_pre_append (pre suffix : String) :
    globPSMatch pre ("") (pre ++ suffix) = true := by
  unfold globPSMatch
  rw [String.data_append]
  simp [isPrefixOf_append_self, nil_isSuffixOf, String.length_append]

/-! ## deleteRedisAuth key-removal facts -/

theorem deleteRedisAuth_glob_none (store : Store) (sid k : String)
    (hk : globPSMatch (kBase sid) ("") k = true) :
    getVal (deleteRedisAuth store sid) k = none := by
  have h0 : alGet (deleteRedisAuth store sid) k = none := by
    unfold deleteRedisAuth
    apply alGet_filter_none
    intro v
    simp [hk]
  simp [getVal, h0]

theorem deleteRedisAuth_listed_none (store : Store) (sid k : String)
    (hk : k ∈ (smembers store (sessSetKey sid)).map tokenKey ++ [sessSetKey sid]) :
    getVal (deleteRedisAuth store sid) k = none := by
  have h0 : alGet (deleteRedisAuth store sid) k = none := by
    unfold deleteRedisAuth
    apply alGet_filter_none
    intro v
    show (!(((smembers store (sessSetKey sid)).map tokenKey
        ++ [sessSetKey sid]).contains k || globPSMatch (kBase sid) ("") k)) = false
    rw [contains_of_mem hk]
    rfl
  simp [getVal, h0]

/-! ## Claim C1 -/

/-- Claim C1: while the lock key of a session is absent, `acquireSessionLock`
succeeds exactly once: it writes the fresh token with TTL `LOCK_TTL_MS` and
returns the lease; an acquire performed on any store in which the key is
already present returns `null` and changes nothing (no retry inside the
call), so in particular a second acquire right after a successful one fails
— at most one holder exists for a given name at any instant. -/
theorem acquire_exclusive_while_absent (st : Store) (sid t1 t2 : String)
    (habs : alGet st (lockKey sid) = none) :
    (acquireSessionLock st sid t1).1 = some { key := lockKey sid, token := t1 } ∧
    getVal (acquireSessionLock st sid t1).2 (lockKey sid) = some (RVal.str t1) ∧
    (alGet (acquireSessionLock st sid t1).2 (lockKey sid)).map (fun e => e.ttlMs)
      = some (some LOCK_TTL_MS) ∧
    acquireSessionLock (acquireSessionLock st sid t1).2 sid t2
      = (none, (acquireSessionLock st sid t1).2) ∧
    (∀ st2 : Store, (alGet st2 (lockKey sid)).isSome →
      acquireSessionLock st2 sid t2 = (none, st2)) := by
  constructor
  · simp [acquireSessionLock, habs]
  constructor
  · simp [acquireSessionLock, habs, getVal, alGet_alSet_self]
  constructor
  · simp [acquireSessionLock, habs, alGet_alSet_self]
  constructor
  · simp [acquireSessionLock, habs, alGet_alSet_self]
  · intro st2 h2
    rcases Option.isSome_iff_exists.mp h2 with ⟨e, he⟩
    simp [acquireSessionLock, he]

/-- Witness for C1 at a concrete input: empty store, session `s`. -/
theorem acquire_exclusive_while_absent_witness :
    alGet ([] : Store) (lockKey ("s")) = none ∧
    (acquireSessionLock ([] : Store) ("s") ("t1")).1
      = some { key := lockKey ("s"), token := ("t1") } := by
  refine ⟨by decide, ?_⟩
  exact (acquire_exclusive_while_absent [] ("s") ("t1") ("t2") (by decide)).1

/-! ## Claim C2 -/

/-- Claim C2: a renew or a release performed when the value stored at the
lock key is not the caller's token is a no-op: the script returns 0, the
TTL is not extended and the key is not deleted — the store is unchanged in
both cases.  (The hypothesis also covers the key being absent or
non-string-typed.) -/
theorem stale_renew_release_noop (st : Store) (key token : String) (ttlMs : Nat)
    (h : getVal st key ≠ some (RVal.str token)) :
    RENEW_LUA st key token ttlMs = (0, st) ∧
    RELEASE_LUA st key token = (0, st) := by
  constructor
  · unfold RENEW_LUA
    cases he : alGet st key with
    | none => rfl
    | some e =>
      cases hv : e.val with
      | str v =>
        have hne : v ≠ token := by
          intro hcontra
          apply h
          simp [getVal, he, hv, hcontra]
        simp [hv, hne]
      | set xs => simp [hv]
  · unfold RELEASE_LUA
    cases he : alGet st key with
    | none => rfl
    | some e =>
      cases hv : e.val with
      | str v =>
        have hne : v ≠ token := by
          intro hcontra
          apply h
          simp [getVal, he, hv, hcontra]
        simp [hv, hne]
      | set xs => simp [hv]

/-- Witness for C2 at a concrete input: the key holds a different token. -/
theorem stale_renew_release_noop_witness :
    RENEW_LUA [((("lock:wa:s")), { val := RVal.str ("other"), ttlMs := some 10000 })]
      ("lock:wa:s") ("mine") 10000
      = (0, [((("lock:wa:s")), { val := RVal.str ("other"), ttlMs := some 10000 })]) := by
  exact (stale_renew_release_noop
    [((("lock:wa:s")), { val := RVal.str ("other"), ttlMs := some 10000 })]
    ("lock:wa:s") ("mine") 10000 (by decide)).1

/-! ## Claim C6 -/

/-- Claim C6: credential load for a session: an absent stored blob yields
freshly initialized empty credentials, and a present blob that fails to
parse also yields freshly initialized credentials — `loadCreds` is a total
function, so corruption is never propagated as a failure to the caller. -/
theorem load_corruption_falls_back {α : Type} (ini : α) (parse : String → Option α) :
    loadCreds ini parse none = ini ∧
    (∀ s : String, parse s = none → loadCreds ini parse (some s) = ini) := by
  refine ⟨rfl, ?_⟩
  intro s hs
  by_cases h : s = ""
  · simp [loadCreds, h]
  · simp [loadCreds, h, hs]

/-- Witness for C6 at a concrete input: a parser that rejects the blob. -/
theorem load_corruption_falls_back_witness :
    loadCreds (0 : Nat) (fun _ => none) (some ("garbage")) = 0 := by
  exact (load_corruption_falls_back 0 (fun _ => none)).2 ("garbage") rfl

/-! ## Claim C8 -/

/-- Claim C8: `deleteRedisAuth` followed by a load for the same session id
returns freshly initialized empty credentials: the main credential blob is
gone, every key of the session's baileys namespace (hence every keyed
signal-material entry) is gone, the session's token set is gone, and every
token mapping listed in that set is gone — no residue a subsequent load
could observe. -/
theorem deleteAll_then_load_fresh {α : Type} (store : Store) (sid : String)
    (ini : α) (parse : String → Option α) :
    getVal (deleteRedisAuth store sid) (kCreds sid) = none ∧
    loadCreds ini parse (getStr (deleteRedisAuth store sid) (kCreds sid)) = ini ∧
    (∀ k : String, globPSMatch (kBase sid) ("") k = true →
      getVal (deleteRedisAuth store sid) k = none) ∧
    (∀ ty ids, signalGet parse (deleteRedisAuth store sid) sid ty ids = []) ∧
    getVal (deleteRedisAuth store sid) (sessSetKey sid) = none ∧
    (∀ t ∈ smembers store (sessSetKey sid),
      getVal (deleteRedisAuth store sid) (tokenKey t) = none) := by
  have hcreds : getVal (deleteRedisAuth store sid) (kCreds sid) = none :=
    deleteRedisAuth_glob_none store sid (kCreds sid) (globPSMatch_pre_append _ _)
  refine ⟨hcreds, ?_, ?_, ?_, ?_, ?_⟩
  · simp [getStr, hcreds, loadCreds]
  · intro k hk
    exact deleteRedisAuth_glob_none store sid k hk
  · intro ty ids
    unfold signalGet
    apply List.filterMap_eq_nil_iff.mpr
    intro id hid
    have hkey : getVal (deleteRedisAuth store sid) (keyOf sid ty id) = none :=
      deleteRedisAuth_glob_none store sid (keyOf sid ty id) (globPSMatch_pre_append _ _)
    simp [getStr, hkey]
  · apply deleteRedisAuth_listed_none
    simp
  · intro t ht
    apply deleteRedisAuth_listed_none
    simp only [List.mem_append, List.mem_map]
    exact Or.inl ⟨t, ht, rfl⟩

/-- Witness for C8 at a concrete input: a one-blob store. -/
theorem deleteAll_then_load_fresh_witness :
    getVal (deleteRedisAuth
        [(kCreds ("s"), { val := RVal.str ("blob"), ttlMs := none })] ("s"))
      (kCreds ("s")) = none := by
  exact (deleteAll_then_load_fresh
    [(kCreds ("s"), { val := RVal.str ("blob"), ttlMs := none })] ("s")
    (0 : Nat) (fun _ => none)).1

/-! ## Claim C5 (corrected) -/

/-- Counterexample to C5 as stated: `cexSt5` holds an in-memory record for
session `s` whose status is 'connecting' (not closed), and the call uses
`force = false`; the claim says the record is returned unchanged with no
new socket and no registry modification, yet `createSession` builds a new
socket (socketBuilt effect, fresh handle 7) and replaces the registry
entry, because the early-return guard additionally requires a non-null
socket and this record's socket is null. -/
theorem createSession_rebuilds_despite_live_entry :
    alGet cexSt5.sessions ("s") = some cexEntry5 ∧
    cexEntry5.status ≠ SessionStatus.closed ∧
    createSession cexSt5 ("s") false
      = Except.ok ({ cexEntry5 with sock := some 7 },
          { cexSt5 with
            nextSock := 8
            sessions := [(("s"), { cexEntry5 with sock := some 7 })] },
          ⟨false, false, false, true⟩) ∧
    ({ cexEntry5 with sock := some 7 } : SessionEntry) ≠ cexEntry5 := by
  decide

/-- Claim C5 as amended: `createSession(id, force)` is an idempotent
get-or-create for records with a live socket: if an in-memory record for
`id` exists whose socket handle is non-null, whose status is not closed,
and `force` is false, the call returns that record unchanged — no lock
acquisition, no socket construction, no registry modification. -/
theorem createSession_idempotent_with_live_sock (st : SysState) (sid : String)
    (e : SessionEntry) (hget : alGet st.sessions sid = some e)
    (hsock : e.sock.isSome = true) (hstat : e.status ≠ SessionStatus.closed) :
    createSession st sid false = Except.ok (e, st, ⟨true, false, false, false⟩) := by
  have hhit : earlyHit (some e) false = true := by
    simp [earlyHit, hsock, hstat]
  simp [createSession, hget, hhit]

/-- Witness for the amended C5 at a concrete input: a live open-socket
entry. -/
theorem createSession_idempotent_with_live_sock_witness :
    createSession seqSt ("s") false
      = Except.ok (seqEntry, seqSt, ⟨true, false, false, false⟩) := by
  exact createSession_idempotent_with_live_sock seqSt ("s") seqEntry
    (by decide) (by decide) (by decide)

/-! ## Claim C4 (corrected) -/

/-- Counterexample to C4 as stated: starting from `cexSt4` (a session that
had backed off to 8000ms), a successful open resets the backoff state to
the configured minimum (2000ms), but the first reconnect scheduled by the
following close uses delay 2 * RECONNECT_MIN = 4000ms, not the minimum:
`scheduleReconnect` doubles the stored delay before using it, and the
stored delay is already the minimum after the reset. -/
theorem close_after_open_schedules_double_min :
    (handleClose (handleOpen cexSt4 ("s") (some ("u"))) ("s") (some 408)).2.1
        = some (2 * RECONNECT_MIN) ∧
    2 * RECONNECT_MIN ≠ RECONNECT_MIN := by
  decide

/-- Claim C4 as amended: reconnect delays follow exponential backoff: a
reconnect scheduled for a session with no (or zero) stored backoff delay
uses the configured minimum; one scheduled while a nonzero delay `d` is
stored uses `min (2 * d) RECONNECT_MAX`; consequently the first reconnect
after a successful open — which resets the stored delay to the minimum —
uses `min (2 * RECONNECT_MIN) RECONNECT_MAX`, and consecutive failed
attempts from a fresh session produce the capped doubling sequence 2000,
4000, 8000, 16000, 30000, 30000. -/
theorem reconnect_backoff_spec :
    (∀ (st : SysState) (sid : String) (s : SessionEntry),
      alGet st.sessions sid = some s → s.reconnecting = false →
      s.backoffMs.getD 0 = 0 →
      (scheduleReconnect st sid).2 = some RECONNECT_MIN) ∧
    (∀ (st : SysState) (sid : String) (s : SessionEntry) (d : Nat),
      alGet st.sessions sid = some s → s.reconnecting = false →
      s.backoffMs = some d → d ≠ 0 →
      (scheduleReconnect st sid).2 = some (min (2 * d) RECONNECT_MAX)) ∧
    (∀ (st : SysState) (sid : String) (s : SessionEntry) (jid : Option String),
      alGet st.sessions sid = some s →
      (handleClose (handleOpen st sid jid) sid (some 408)).2.1
        = some (min (2 * RECONNECT_MIN) RECONNECT_MAX)) ∧
    ((handleClose seqSt ("s") (some 408)).2.1 = some RECONNECT_MIN ∧
      delaysAfter (handleClose seqSt ("s") (some 408)).1 ("s") 5
        = [some 4000, some 8000, some 16000, some 30000, some 30000]) := by
  have hmin : min RECONNECT_MIN RECONNECT_MAX = RECONNECT_MIN := by decide
  refine ⟨?_, ?_, ?_, ?_⟩
  · intro st sid s hget hrec hb
    simp [scheduleReconnect, hget, hrec, hb, hmin]
  · intro st sid s d hget hrec hb hd
    simp [scheduleReconnect, hget, hrec, hb, hd]
  · intro st sid s jid hget
    have h1 : handleOpen st sid jid = { st with sessions := alSet st.sessions sid (resetBackoff { s with status := SessionStatus.opened, userJid := jid, lastQr := none }) } := by
      simp [handleOpen, hget]
    rw [h1]
    simp [handleClose, alGet_alSet_self, scheduleReconnect, resetBackoff, RECONNECT_MIN,
      DisconnectReason.loggedOut, DisconnectReason.connectionReplaced]
  · decide

/-- Witness for the amended C4 at a concrete input: the first reconnect of
a fresh session uses the minimum delay. -/
theorem reconnect_backoff_spec_witness :
    (scheduleReconnect seqSt ("s")).2 = some RECONNECT_MIN := by
  exact reconnect_backoff_spec.1 seqSt ("s") seqEntry (by decide) (by decide) (by decide)

/-! ## logoutSession and handleClose reduction helpers -/

theorem logoutSession_present (st : SysState) (sid : String) (s : SessionEntry)
    (hget : alGet st.sessions sid = some s) :
    (logoutSession st sid).1.sessions = alDel st.sessions sid ∧
    (logoutSession st sid).1.store = deleteRedisAuth (match s.lock with | some l => (RELEASE_LUA st.store l.key l.token).2 | none => st.store) sid ∧
    (logoutSession st sid).2 = ⟨s.sock.isSome, s.sock.isSome, s.lock.isSome, true⟩ := by
  unfold logoutSession getSession
  simp [hget]

theorem handleClose_term_branch (st : SysState) (sid : String) (s : SessionEntry) (code : Nat)
    (hget : alGet st.sessions sid = some s)
    (hcode : code = DisconnectReason.loggedOut ∨ code = DisconnectReason.connectionReplaced) :
    handleClose st sid (some code)
      = ((logoutSession { st with sessions := alSet st.sessions sid { s with status := SessionStatus.closed, lastQr := none } } sid).1,
         none,
         some (logoutSession { st with sessions := alSet st.sessions sid { s with status := SessionStatus.closed, lastQr := none } } sid).2) := by
  rcases hcode with hc | hc <;> simp [handleClose, hget, hc]

/-! ## Claim C3 -/

/-- Claim C3: a connection-close event whose cause is loggedOut (401) or
connectionReplaced (440) triggers full termination: the socket listeners
are removed and the socket is logged out, the distributed lock release is
invoked, the in-memory record is removed from the registry, the credential
blob is deleted from the store — and no reconnect is scheduled (the armed
reconnect delay of the close handler is `none`, and no registry entry
remains to carry a backoff timer). -/
theorem close_loggedOut_full_termination (st : SysState) (sid : String)
    (s : SessionEntry) (l : SessionLock) (code : Nat)
    (hget : alGet st.sessions sid = some s)
    (hsock : s.sock.isSome = true) (hlock : s.lock = some l)
    (hcode : code = DisconnectReason.loggedOut ∨ code = DisconnectReason.connectionReplaced) :
    (handleClose st sid (some code)).2.1 = none ∧
    (handleClose st sid (some code)).2.2 = some ⟨true, true, true, true⟩ ∧
    alGet (handleClose st sid (some code)).1.sessions sid = none ∧
    getVal (handleClose st sid (some code)).1.store (kCreds sid) = none := by
  have hred := handleClose_term_branch st sid s code hget hcode
  have hget1 : alGet ({ st with sessions := alSet st.sessions sid { s with status := SessionStatus.closed, lastQr := none } } : SysState).sessions sid = some { s with status := SessionStatus.closed, lastQr := none } :=
    alGet_alSet_self _ _ _
  have hlp := logoutSession_present _ sid _ hget1
  rw [hred]
  refine ⟨rfl, ?_, ?_, ?_⟩
  · rw [hlp.2.2]
    simp [hsock, hlock]
  · rw [hlp.1]
    exact alGet_alDel_self _ _
  · rw [hlp.2.1]
    exact deleteRedisAuth_glob_none _ sid _ (globPSMatch_pre_append _ _)

/-- Witness for C3 at a concrete input: a live session closed with cause
loggedOut (401). -/
theorem close_loggedOut_full_termination_witness :
    (handleClose cexSt4 ("s") (some 401)).2.1 = none ∧
    alGet (handleClose cexSt4 ("s") (some 401)).1.sessions ("s") = none := by
  have h := close_loggedOut_full_termination cexSt4 ("s") cexEntry4
    { key := lockKey ("s"), token := ("t") } 401
    (by decide) (by decide) (by decide) (Or.inl rfl)
  exact ⟨h.1, h.2.2.1⟩

/-! ## Registry-invariant helpers (claim C9) -/

theorem registryInv_alSet {l : List (String × SessionEntry)} {sid : String}
    {e : SessionEntry} (hl : registryInv l) (he : e.lock.isSome = true) :
    registryInv (alSet l sid e) := by
  intro p hp
  rcases mem_alSet hp with h | h
  · rw [h]
    exact he
  · exact hl p h

theorem registryInv_alDel {l : List (String × SessionEntry)} {sid : String}
    (hl : registryInv l) : registryInv (alDel l sid) := by
  intro p hp
  exact hl p (List.mem_of_mem_filter hp)

theorem registryInv_get {l : List (String × SessionEntry)} {sid : String}
    {e : SessionEntry} (hl : registryInv l) (h : alGet l sid = some e) :
    e.lock.isSome = true :=
  hl (sid, e) (mem_of_alGet h)

theorem createSession_ok_registryInv {st : SysState} {sid : String} {force : Bool}
    {e : SessionEntry} {st2 : SysState} {fx : CreateEffects}
    (hinv : registryInv st.sessions)
    (h : createSession st sid force = Except.ok (e, st2, fx)) :
    registryInv st2.sessions := by
  simp only [createSession] at h
  cases hg : alGet st.sessions sid with
  | some e0 =>
    rw [hg] at h
    have he0 : e0.lock.isSome = true := registryInv_get hinv hg
    by_cases hhit : earlyHit (some e0) force
    · rw [if_pos hhit] at h
      simp only [Except.ok.injEq, Prod.mk.injEq] at h
      obtain ⟨-, hst2, -⟩ := h
      rw [← hst2]
      exact hinv
    · rw [if_neg hhit] at h
      by_cases hl0 : ((some e0).bind (fun e => e.lock)).isSome = true
      · rw [if_pos hl0] at h
        simp only at h
        have hget1 : alGet st.sessions sid = some e0 := hg
        by_cases hdet : (force && ((some e0).bind (fun e => e.sock)).isSome) = true
        · rw [if_pos hdet] at h
          rw [hg] at h
          simp only [Except.ok.injEq, Prod.mk.injEq] at h
          obtain ⟨-, hst2, -⟩ := h
          rw [← hst2]
          apply registryInv_alSet
          · exact registryInv_alSet hinv he0
          · have : alGet (alSet st.sessions sid { e0 with sock := none }) sid
                = some { e0 with sock := none } := alGet_alSet_self _ _ _
            rw [this]
            simpa using he0
        · rw [if_neg hdet] at h
          rw [hg] at h
          simp only [Except.ok.injEq, Prod.mk.injEq] at h
          obtain ⟨-, hst2, -⟩ := h
          rw [← hst2]
          apply registryInv_alSet hinv
          simpa using he0
      · rw [if_neg hl0] at h
        cases hacq : acquireSessionLock st.store sid (freshToken st.nextToken) with
        | mk lres store2 =>
          rw [hacq] at h
          cases lres with
          | none => simp at h
          | some l =>
            simp only at h
            have hbase : alGet (alSet st.sessions sid { e0 with lock := some l }) sid
                = some { e0 with lock := some l } := alGet_alSet_self _ _ _
            have hinv1 : registryInv (alSet st.sessions sid { e0 with lock := some l }) := by
              apply registryInv_alSet hinv
              simp
            by_cases hdet : (force && ((some e0).bind (fun e => e.sock)).isSome) = true
            · rw [if_pos hdet] at h
              rw [hbase] at h
              simp only [Except.ok.injEq, Prod.mk.injEq] at h
              obtain ⟨-, hst2, -⟩ := h
              rw [← hst2]
              apply registryInv_alSet
              · apply registryInv_alSet hinv1
                simp
              · have : alGet (alSet (alSet st.sessions sid { e0 with lock := some l }) sid { { e0 with lock := some l } with sock := none }) sid = some { { e0 with lock := some l } with sock := none } := alGet_alSet_self _ _ _
                rw [this]
                simp
            · rw [if_neg hdet] at h
              rw [hbase] at h
              simp only [Except.ok.injEq, Prod.mk.injEq] at h
              obtain ⟨-, hst2, -⟩ := h
              rw [← hst2]
              apply registryInv_alSet hinv1
              simp
  | none =>
    rw [hg] at h
    have hhit : earlyHit none force = false := rfl
    rw [hhit] at h
    simp only [Bool.false_eq_true, if_false] at h
    have hl0 : ((none : Option SessionEntry).bind (fun e => e.lock)).isSome = false := rfl
    rw [hl0] at h
    simp only [Bool.false_eq_true, if_false] at h
    cases hacq : acquireSessionLock st.store sid (freshToken st.nextToken) with
    | mk lres store2 =>
      rw [hacq] at h
      cases lres with
      | none => simp at h
      | some l =>
        simp only at h
        have hbase : alGet (alSet st.sessions sid { emptyEntry with lock := some l }) sid
            = some { emptyEntry with lock := some l } := alGet_alSet_self _ _ _
        have hinv1 : registryInv (alSet st.sessions sid { emptyEntry with lock := some l }) := by
          apply registryInv_alSet hinv
          simp
        have hdet : (force && ((none : Option SessionEntry).bind (fun e => e.sock)).isSome) = false := by
          simp
        rw [hdet] at h
        simp only [Bool.false_eq_true, if_false] at h
        rw [hbase] at h
        simp only [Except.ok.injEq, Prod.mk.injEq] at h
        obtain ⟨-, hst2, -⟩ := h
        rw [← hst2]
        apply registryInv_alSet hinv1
        simp

/-- A successful `createSession` call always leaves the returned entry
stored in the registry under `sid` (either it was the early-returned stored
entry, or it is the entry the final replacement stored). -/
theorem createSession_ok_get {st : SysState} {sid : String} {force : Bool}
    {e : SessionEntry} {st2 : SysState} {fx : CreateEffects}
    (h : createSession st sid force = Except.ok (e, st2, fx)) :
    alGet st2.sessions sid = some e := by
  simp only [createSession] at h
  cases hg : alGet st.sessions sid with
  | some e0 =>
    rw [hg] at h
    by_cases hhit : earlyHit (some e0) force
    · rw [if_pos hhit] at h
      simp only [Except.ok.injEq, Prod.mk.injEq] at h
      obtain ⟨he, hst2, -⟩ := h
      rw [← hst2, ← he]
      exact hg
    · rw [if_neg hhit] at h
      by_cases hl0 : ((some e0).bind (fun e => e.lock)).isSome = true
      · rw [if_pos hl0] at h
        simp only at h
        by_cases hdet : (force && ((some e0).bind (fun e => e.sock)).isSome) = true
        · rw [if_pos hdet] at h
          rw [hg] at h
          simp only [Except.ok.injEq, Prod.mk.injEq] at h
          obtain ⟨he, hst2, -⟩ := h
          rw [← hst2, ← he]
          simp [alGet_alSet_self]
        · rw [if_neg hdet] at h
          rw [hg] at h
          simp only [Except.ok.injEq, Prod.mk.injEq] at h
          obtain ⟨he, hst2, -⟩ := h
          rw [← hst2, ← he]
          simp [alGet_alSet_self]
      · rw [if_neg hl0] at h
        cases hacq : acquireSessionLock st.store sid (freshToken st.nextToken) with
        | mk lres store2 =>
          rw [hacq] at h
          cases lres with
          | none => simp at h
          | some l =>
            simp only at h
            have hbase : alGet (alSet st.sessions sid { e0 with lock := some l }) sid
                = some { e0 with lock := some l } := alGet_alSet_self _ _ _
            by_cases hdet : (force && ((some e0).bind (fun e => e.sock)).isSome) = true
            · rw [if_pos hdet] at h
              rw [hbase] at h
              simp only [Except.ok.injEq, Prod.mk.injEq] at h
              obtain ⟨he, hst2, -⟩ := h
              rw [← hst2, ← he]
              simp [alGet_alSet_self]
            · rw [if_neg hdet] at h
              rw [hbase] at h
              simp only [Except.ok.injEq, Prod.mk.injEq] at h
              obtain ⟨he, hst2, -⟩ := h
              rw [← hst2, ← he]
              simp [alGet_alSet_self]
  | none =>
    rw [hg] at h
    have hhit : earlyHit none force = false := rfl
    rw [hhit] at h
    simp only [Bool.false_eq_true, if_false] at h
    have hl0 : ((none : Option SessionEntry).bind (fun e => e.lock)).isSome = false := rfl
    rw [hl0] at h
    simp only [Bool.false_eq_true, if_false] at h
    cases hacq : acquireSessionLock st.store sid (freshToken st.nextToken) with
    | mk lres store2 =>
      rw [hacq] at h
      cases lres with
      | none => simp at h
      | some l =>
        simp only at h
        have hbase : alGet (alSet st.sessions sid { emptyEntry with lock := some l }) sid
            = some { emptyEntry with lock := some l } := alGet_alSet_self _ _ _
        have hdet : (force && ((none : Option SessionEntry).bind (fun e => e.sock)).isSome) = false := by
          simp
        rw [hdet] at h
        simp only [Bool.false_eq_true, if_false] at h
        rw [hbase] at h
        simp only [Except.ok.injEq, Prod.mk.injEq] at h
        obtain ⟨he, hst2, -⟩ := h
        rw [← hst2, ← he]
        simp [alGet_alSet_self]

theorem getSession_registryInv {st : SysState} {sid : String}
    (hinv : registryInv st.sessions) : registryInv (getSession st sid).2.sessions := by
  unfold getSession
  cases hg : alGet st.sessions sid with
  | some s => simpa using hinv
  | none =>
    cases hc : createSession st sid false with
    | ok r =>
      obtain ⟨e, st2, fx⟩ := r
      simpa using createSession_ok_registryInv hinv hc
    | error c => simpa using hinv

theorem logoutSession_registryInv {st : SysState} {sid : String}
    (hinv : registryInv st.sessions) : registryInv (logoutSession st sid).1.sessions := by
  unfold logoutSession
  cases hg : getSession st sid with
  | mk o st1 =>
    have hinv1 : registryInv st1.sessions := by
      have hx := @getSession_registryInv st sid hinv
      rw [hg] at hx
      exact hx
    cases o with
    | none => simpa using hinv1
    | some s =>
      simp only
      exact registryInv_alDel hinv1

theorem scheduleReconnect_registryInv {st : SysState} {sid : String}
    (hinv : registryInv st.sessions) : registryInv (scheduleReconnect st sid).1.sessions := by
  unfold scheduleReconnect
  cases hg : alGet st.sessions sid with
  | none => simpa using hinv
  | some s =>
    by_cases hr : s.reconnecting = true
    · simpa [hr] using hinv
    · simp only [Bool.not_eq_true] at hr
      simp only [hr, Bool.false_eq_true, if_false]
      apply registryInv_alSet hinv
      simpa using registryInv_get hinv hg

theorem reconnectFailedRetry_registryInv {st : SysState} {sid : String}
    (hinv : registryInv st.sessions) :
    registryInv (reconnectFailedRetry st sid).1.sessions := by
  unfold reconnectFailedRetry
  cases hg : alGet st.sessions sid with
  | none => simpa using hinv
  | some s =>
    simp only
    apply scheduleReconnect_registryInv
    apply registryInv_alSet hinv
    simpa using registryInv_get hinv hg

theorem handleOpen_registryInv {st : SysState} {sid : String} {jid : Option String}
    (hinv : registryInv st.sessions) : registryInv (handleOpen st sid jid).sessions := by
  unfold handleOpen
  cases hg : alGet st.sessions sid with
  | none => simpa using hinv
  | some s =>
    simp only
    apply registryInv_alSet hinv
    simp only [resetBackoff]
    simpa using registryInv_get hinv hg

theorem handleClose_registryInv {st : SysState} {sid : String} {code : Option Nat}
    (hinv : registryInv st.sessions) :
    registryInv (handleClose st sid code).1.sessions := by
  unfold handleClose
  cases hg : alGet st.sessions sid with
  | none => simpa using hinv
  | some s =>
    have hinv1 : registryInv (alSet st.sessions sid { s with status := SessionStatus.closed, lastQr := none }) := by
      apply registryInv_alSet hinv
      simpa using registryInv_get hinv hg
    by_cases hc : (code == some DisconnectReason.loggedOut
        || code == some DisconnectReason.connectionReplaced) = true
    · simp only [hc, if_true]
      exact logoutSession_registryInv hinv1
    · simp only [Bool.not_eq_true] at hc
      simp only [hc, Bool.false_eq_true, if_false]
      exact scheduleReconnect_registryInv hinv1

/-! ## Claim C9 -/

/-- Claim C9: the in-memory session registry only ever holds entries with a
non-null distributed lock: every operation of the session state machine
preserves the invariant that each stored `SessionEntry` has `lock` present
— `createSession` inserts only after a successful acquisition and the
forced re-creation spreads (and so keeps) the old entry's lock,
`logoutSession` removes the entry entirely, and the remaining operations
never clear the lock field. -/
theorem registry_entries_always_have_lock :
    (∀ (st : SysState) (sid : String) (force : Bool) (e : SessionEntry)
        (st2 : SysState) (fx : CreateEffects), registryInv st.sessions →
      createSession st sid force = Except.ok (e, st2, fx) →
      registryInv st2.sessions ∧ e.lock.isSome = true) ∧
    (∀ (st : SysState) (sid : String), registryInv st.sessions →
      registryInv (getSession st sid).2.sessions) ∧
    (∀ (st : SysState) (sid : String), registryInv st.sessions →
      registryInv (logoutSession st sid).1.sessions) ∧
    (∀ (st : SysState) (sid : String), registryInv st.sessions →
      registryInv (scheduleReconnect st sid).1.sessions) ∧
    (∀ (st : SysState) (sid : String), registryInv st.sessions →
      registryInv (reconnectFailedRetry st sid).1.sessions) ∧
    (∀ (st : SysState) (sid : String) (jid : Option String), registryInv st.sessions →
      registryInv (handleOpen st sid jid).sessions) ∧
    (∀ (st : SysState) (sid : String) (code : Option Nat), registryInv st.sessions →
      registryInv (handleClose st sid code).1.sessions) := by
  refine ⟨?_, ?_, ?_, ?_, ?_, ?_, ?_⟩
  · intro st sid force e st2 fx hinv h
    refine ⟨createSession_ok_registryInv hinv h, ?_⟩
    exact registryInv_get (createSession_ok_registryInv hinv h) (createSession_ok_get h)
  · intro st sid hinv
    exact getSession_registryInv hinv
  · intro st sid hinv
    exact logoutSession_registryInv hinv
  · intro st sid hinv
    exact scheduleReconnect_registryInv hinv
  · intro st sid hinv
    exact reconnectFailedRetry_registryInv hinv
  · intro st sid jid hinv
    exact handleOpen_registryInv hinv
  · intro st sid code hinv
    exact handleClose_registryInv hinv

/-- Witness for C9 at a concrete input: logging out a live session keeps
the registry invariant. -/
theorem registry_entries_always_have_lock_witness :
    registryInv (logoutSession seqSt ("s")).1.sessions := by
  exact registry_entries_always_have_lock.2.2.1 seqSt ("s")
    (by unfold registryInv; decide)

/-! ## Restore-scanner retry-loop lemmas (claim C7) -/

theorem restoreTry_attempts_le (att : Nat → AttemptResult) :
    ∀ (fuel a : Nat) (b : Bool) (n : Nat), restoreTry att fuel a = (b, n) → n ≤ fuel := by
  intro fuel
  induction fuel with
  | zero =>
    intro a b n h
    simp only [restoreTry, Prod.mk.injEq] at h
    omega
  | succ f ih =>
    intro a b n h
    simp only [restoreTry] at h
    split at h
    · simp only [Prod.mk.injEq] at h
      omega
    · simp only [Prod.mk.injEq] at h
      omega
    · split at h
      · simp only [Prod.mk.injEq] at h
        omega
      · simp only [Prod.mk.injEq] at h
        have h2 := ih (a + 1) (restoreTry att f (a + 1)).1 (restoreTry att f (a + 1)).2 rfl
        omega

theorem restoreTry_pre_locked (att : Nat → AttemptResult) :
    ∀ (fuel a : Nat) (b : Bool) (n : Nat), restoreTry att fuel a = (b, n) →
      ∀ j, j + 1 < n → att (a + j) = AttemptResult.locked := by
  intro fuel
  induction fuel with
  | zero =>
    intro a b n h j hj
    simp only [restoreTry, Prod.mk.injEq] at h
    omega
  | succ f ih =>
    intro a b n h j hj
    simp only [restoreTry] at h
    split at h
    · simp only [Prod.mk.injEq] at h
      omega
    · simp only [Prod.mk.injEq] at h
      omega
    · rename_i hatt
      split at h
      · simp only [Prod.mk.injEq] at h
        omega
      · simp only [Prod.mk.injEq] at h
        obtain ⟨hb, hn⟩ := h
        cases j with
        | zero => simpa using hatt
        | succ j2 =>
          have h3 := ih (a + 1) (restoreTry att f (a + 1)).1 (restoreTry att f (a + 1)).2
            rfl j2 (by omega)
          have harith : a + 1 + j2 = a + (j2 + 1) := by omega
          rw [harith] at h3
          exact h3

theorem restoreTry_success (att : Nat → AttemptResult) :
    ∀ (fuel a : Nat) (b : Bool) (n : Nat), restoreTry att fuel a = (b, n) → b = true →
      1 ≤ n ∧ att (a + n - 1) = AttemptResult.ok := by
  intro fuel
  induction fuel with
  | zero =>
    intro a b n h hb
    simp only [restoreTry, Prod.mk.injEq] at h
    rw [← h.1] at hb
    simp at hb
  | succ f ih =>
    intro a b n h hb
    simp only [restoreTry] at h
    split at h
    · rename_i hatt
      simp only [Prod.mk.injEq] at h
      obtain ⟨-, hn⟩ := h
      refine ⟨by omega, ?_⟩
      have harith : a + n - 1 = a := by omega
      rw [harith]
      exact hatt
    · simp only [Prod.mk.injEq] at h
      rw [← h.1] at hb
      simp at hb
    · rename_i hatt
      split at h
      · simp only [Prod.mk.injEq] at h
        rw [← h.1] at hb
        simp at hb
      · simp only [Prod.mk.injEq] at h
        obtain ⟨hb2, hn⟩ := h
        rw [← hb2] at hb
        obtain ⟨h1, h2⟩ := ih (a + 1) (restoreTry att f (a + 1)).1
          (restoreTry att f (a + 1)).2 rfl hb
        refine ⟨by omega, ?_⟩
        have harith : a + n - 1 = a + 1 + (restoreTry att f (a + 1)).2 - 1 := by omega
        rw [harith]
        exact h2

theorem foldl_restoreStep (locked : List String) (att : String → Nat → AttemptResult) :
    ∀ (ids : List String) (acc : List String × List (String × Nat)),
      ids.foldl (restoreStep locked att) acc
        = (acc.1 ++ ids.filter (fun id => !(locked.contains id)
              && (restoreTry (att id) (RETRIES + 1) 0).1),
           acc.2 ++ ids.map (fun id => (id,
              if locked.contains id then 0
              else (restoreTry (att id) (RETRIES + 1) 0).2))) := by
  intro ids
  induction ids with
  | nil =>
    intro acc
    simp
  | cons id rest ih =>
    intro acc
    rw [List.foldl_cons, ih]
    by_cases hl : id ∈ locked
    · simp [restoreStep, hl, List.filter_cons, List.map_cons, List.append_assoc]
    · by_cases hr : (restoreTry (att id) (RETRIES + 1) 0).1 = true
      · simp [restoreStep, hl, hr, List.filter_cons, List.map_cons, List.append_assoc]
      · simp only [Bool.not_eq_true] at hr
        simp [restoreStep, hl, hr, List.filter_cons, List.map_cons, List.append_assoc]

/-! ## Claim C7 -/

/-- Claim C7: `restoreAllSessionsFromRedis` (a total function — it always
returns normally): candidates whose lock key is present are skipped with
zero attempts; every processed candidate is attempted at most RETRIES + 1
times; an id reaches the restored list exactly when its bounded retry loop
succeeded, and in that case every attempt before the successful one hit the
locked (423) condition — any other failure stops the loop after a single
attempt, logged and skipped; and over a store with three credential blobs
and one active lock exactly the two unlocked sessions are restored. -/
theorem restoreAll_isolates_and_reports (keys : List String)
    (att : String → Nat → AttemptResult) :
    (restoreAllSessionsFromRedis keys att).1
        = (candidateIds keys).filter (fun id => !((lockedIds keys).contains id)
            && (restoreTry (att id) (RETRIES + 1) 0).1) ∧
    (∀ id, id ∈ lockedIds keys →
      id ∉ (restoreAllSessionsFromRedis keys att).1 ∧
      (id ∈ candidateIds keys → (id, 0) ∈ (restoreAllSessionsFromRedis keys att).2)) ∧
    (∀ id n, (id, n) ∈ (restoreAllSessionsFromRedis keys att).2 → n ≤ RETRIES + 1) ∧
    (∀ id, id ∈ (restoreAllSessionsFromRedis keys att).1 →
      ∃ n, 1 ≤ n ∧ n ≤ RETRIES + 1 ∧ att id (n - 1) = AttemptResult.ok ∧
        (∀ j, j + 1 < n → att id j = AttemptResult.locked)) ∧
    (∀ id, id ∈ candidateIds keys → id ∉ lockedIds keys →
      att id 0 = AttemptResult.failed →
      id ∉ (restoreAllSessionsFromRedis keys att).1 ∧
        (id, 1) ∈ (restoreAllSessionsFromRedis keys att).2) ∧
    restoreAllSessionsFromRedis keys3 (fun _ _ => AttemptResult.ok)
        = ([("a"), ("c")], [(("a"), 1), (("b"), 0), (("c"), 1)]) := by
  have hchar := foldl_restoreStep (lockedIds keys) att (candidateIds keys) ([], [])
  have h1 : (restoreAllSessionsFromRedis keys att).1
      = (candidateIds keys).filter (fun id => !((lockedIds keys).contains id)
          && (restoreTry (att id) (RETRIES + 1) 0).1) := by
    unfold restoreAllSessionsFromRedis
    rw [hchar]
    simp
  have h2 : (restoreAllSessionsFromRedis keys att).2
      = (candidateIds keys).map (fun id => (id,
          if (lockedIds keys).contains id then 0
          else (restoreTry (att id) (RETRIES + 1) 0).2)) := by
    unfold restoreAllSessionsFromRedis
    rw [hchar]
    simp
  refine ⟨h1, ?_, ?_, ?_, ?_, ?_⟩
  · intro id hl
    constructor
    · rw [h1]
      intro hmem
      have hp := (List.mem_filter.mp hmem).2
      simp [hl] at hp
    · intro hc
      rw [h2]
      apply List.mem_map.mpr
      refine ⟨id, hc, ?_⟩
      simp [hl]
  · intro id n hmem
    rw [h2] at hmem
    obtain ⟨id2, -, heq⟩ := List.mem_map.mp hmem
    simp only [Prod.mk.injEq] at heq
    obtain ⟨-, hn⟩ := heq
    by_cases hl : (lockedIds keys).contains id2 = true
    · rw [if_pos hl] at hn
      omega
    · rw [if_neg hl] at hn
      have := restoreTry_attempts_le (att id2) (RETRIES + 1) 0
        (restoreTry (att id2) (RETRIES + 1) 0).1
        (restoreTry (att id2) (RETRIES + 1) 0).2 rfl
      omega
  · intro id hmem
    rw [h1] at hmem
    have hp := (List.mem_filter.mp hmem).2
    simp only [Bool.and_eq_true, Bool.not_eq_true] at hp
    obtain ⟨-, hsucc⟩ := hp
    refine ⟨(restoreTry (att id) (RETRIES + 1) 0).2, ?_, ?_, ?_, ?_⟩
    · exact (restoreTry_success (att id) (RETRIES + 1) 0 _ _ rfl hsucc).1
    · exact restoreTry_attempts_le (att id) (RETRIES + 1) 0 _ _ rfl
    · have hx := (restoreTry_success (att id) (RETRIES + 1) 0 _ _ rfl hsucc).2
      simpa using hx
    · intro j hj
      have hx := restoreTry_pre_locked (att id) (RETRIES + 1) 0 _ _ rfl j hj
      simpa using hx
  · intro id hc hl hfail
    have hres : restoreTry (att id) (RETRIES + 1) 0 = (false, 1) := by
      simp [restoreTry, hfail]
    constructor
    · rw [h1]
      intro hmem
      have hp := (List.mem_filter.mp hmem).2
      rw [hres] at hp
      simp at hp
    · rw [h2]
      apply List.mem_map.mpr
      refine ⟨id, hc, ?_⟩
      simp [hl, hres]
  · decide

/-- Witness for C7 at a concrete input: three credential blobs, one held
lock, an oracle that succeeds immediately — the two unlocked sessions are
restored and the locked one is skipped with zero attempts. -/
theorem restoreAll_isolates_and_reports_witness :
    restoreAllSessionsFromRedis keys3 (fun _ _ => AttemptResult.ok)
      = ([("a"), ("c")], [(("a"), 1), (("b"), 0), (("c"), 1)]) := by
  exact (restoreAll_isolates_and_reports keys3
    (fun _ _ => AttemptResult.ok)).2.2.2.2.2

/-! ## Token-generator lemmas (claim C10) -/

theorem alphabet_getD_mem : ∀ v : Nat, v < 62 →
    ALPHABET62.data.getD v ('A') ∈ ALPHABET62.data := by
  decide

theorem tokenBatch_length_le (n : Nat) (bytes : List Nat) :
    ∀ out : List Char, out.length ≤ n → (tokenBatch n out bytes).length ≤ n := by
  induction bytes with
  | nil =>
    intro out h
    simpa [tokenBatch] using h
  | cons b bs ih =>
    intro out h
    rw [tokenBatch, List.foldl_cons]
    apply ih
    by_cases hlt : out.length < n
    · by_cases hv : (b &&& MASK_6BITS) < 62
      · simp only [hlt, if_true, hv]
        simp [hlt, hv]
        omega
      · simp [hlt, hv, h]
    · simp [hlt, h]

theorem tokenBatch_alpha (n : Nat) (bytes : List Nat) :
    ∀ out : List Char, (∀ c ∈ out, c ∈ ALPHABET62.data) →
      ∀ c ∈ tokenBatch n out bytes, c ∈ ALPHABET62.data := by
  induction bytes with
  | nil =>
    intro out h
    simpa [tokenBatch] using h
  | cons b bs ih =>
    intro out h
    rw [tokenBatch, List.foldl_cons]
    apply ih
    intro c hc
    by_cases hlt : out.length < n
    · by_cases hv : (b &&& MASK_6BITS) < 62
      · simp only [hlt, if_true, hv] at hc
        simp only [hlt, hv, if_true, List.mem_append, List.mem_singleton] at hc
        rcases hc with hc | hc
        · exact h c hc
        · rw [hc]
          exact alphabet_getD_mem _ hv
      · simp only [hlt, hv, if_true, if_false] at hc
        exact h c hc
    · simp only [hlt, if_false] at hc
      exact h c hc

theorem genTokenFuel_spec (rand : Nat → Nat) (n : Nat) :
    ∀ (fuel pos : Nat) (out s : List Char), out.length ≤ n →
      (∀ c ∈ out, c ∈ ALPHABET62.data) →
      genTokenFuel rand fuel pos n out = some s →
      s.length = n ∧ ∀ c ∈ s, c ∈ ALPHABET62.data := by
  intro fuel
  induction fuel with
  | zero =>
    intro pos out s hlen halpha h
    simp [genTokenFuel] at h
  | succ f ih =>
    intro pos out s hlen halpha h
    rw [genTokenFuel] at h
    by_cases hlt : out.length < n
    · rw [if_pos hlt] at h
      exact ih _ _ s
        (tokenBatch_length_le n _ out hlen)
        (tokenBatch_alpha n _ out halpha) h
    · rw [if_neg hlt] at h
      have hs : out = s := Option.some.inj h
      rw [← hs]
      exact ⟨by omega, halpha⟩

/-! ## Claim C10 -/

/-- Claim C10: whenever `genToken` completes for a requested length `n`, it
returns a token of exactly `n` characters drawn only from the base62
alphabet A-Z a-z 0-9 — the rejection sampling (discarding 6-bit values 62
and 63) guarantees no other character ever appears and the output length
always equals the request, for every byte stream and fuel. -/
theorem genToken_base62 (rand : Nat → Nat) (fuel n : Nat) (s : List Char)
    (h : genToken rand fuel n = some s) :
    s.length = n ∧ ∀ c ∈ s, c ∈ ALPHABET62.data := by
  exact genTokenFuel_spec rand n fuel 0 [] s (by simp) (by simp) h

/-- Witness for C10 at a concrete input: the all-zero byte stream yields
five letters 'A' for a request of length five. -/
theorem genToken_base62_witness :
    genToken (fun _ => 0) 2 5 = some (List.replicate 5 ('A')) ∧
    (List.replicate 5 ('A')).length = 5 := by
  refine ⟨by decide, ?_⟩
  exact (genToken_base62 (fun _ => 0) 2 5 (List.replicate 5 ('A')) (by decide)).1

end WAFleet
